import Mathlib

/-!
Shallow embedding of the student-papers submission/approval service.

The definitions below are translated from the repository's route handlers
and libraries:

* `applyApproval`, `approvalPUT`  — the `PUT /api/admin/approval` handler
  (status-transition operation on a submission).
* `uploadCompletePOST`, `saveFileMetadata` — the `POST /api/upload/complete`
  handler and `StorageService.saveFileMetadata`.
* `presignedUrlPOST`, `validateFileOnServer` — the
  `POST /api/upload/presigned-url` handler, `lib/validation.ts`, and the
  object-key construction of `S3StorageService.generateUploadUrl`.
* `registerPOST` — the `POST /register` handler.
* `listSubmissionsA` / `listSubmissionsB` — the two divergent
  `GET /api/admin/submissions` handlers present in the repository.
* `userFilesGET` — the `GET /api/files/user/[userId]` handler.
* `Op` / `applyOp` — the write surface of the service as a step function
  on the store.

Machine-level/environment inputs (current time, generated row ids, the
bcrypt hash function, the uuid used in object keys) are passed in
explicitly as parameters.  Database state is a pair of in-memory tables
(`DB`).  JS string primitives that the handlers use (`trim`,
`toLowerCase`, `includes`) are implemented over character lists so that
all definitions evaluate inside the kernel.
-/

/-- The `FileStatus` Postgres enum (`PENDING`, `APPROVED`, `REJECTED`). -/
inductive FileStatus where
  | PENDING
  | APPROVED
  | REJECTED
deriving DecidableEq, Repr

/-- `Object.values(FileStatus).includes(status)` together with the cast from
the request string: the parse succeeds exactly on the three enum names. -/
def parseFileStatus : String → Option FileStatus
  | "PENDING" => some .PENDING
  | "APPROVED" => some .APPROVED
  | "REJECTED" => some .REJECTED
  | _ => none

/-- String form of a `FileStatus`, as serialized by Prisma/JSON. -/
def statusString : FileStatus → String
  | .PENDING => "PENDING"
  | .APPROVED => "APPROVED"
  | .REJECTED => "REJECTED"

/-- A row of the `user` table (columns used by the handlers under study;
`role` is a TEXT column, written as `"STUDENT"` by registration). -/
structure User where
  id : String
  name : String
  email : String
  cccd : String
  passwordHash : String
  role : String
deriving DecidableEq, Repr

/-- A row of the `files` table. `uploadedAt`/`approvedAt` timestamps are
modelled as natural numbers. -/
structure Submission where
  id : String
  userId : String
  s3ObjectId : String
  fileName : String
  fileSize : Int
  mimeType : String
  status : FileStatus
  uploadedAt : Nat
  approvedAt : Option Nat
  approvedBy : Option String
deriving DecidableEq, Repr

/-- The relational store: the two tables of interest. -/
structure DB where
  users : List User
  files : List Submission
deriving DecidableEq, Repr

/-- The authenticated session as seen by the handlers (`AuthSession`): the
user's id and the optional `role` field. -/
structure SessionInfo where
  userId : String
  role : Option String
deriving DecidableEq, Repr

/-- An HTTP error response: status code and message. -/
structure HttpError where
  status : Nat
  message : String
deriving DecidableEq, Repr

/-! ### JS string primitives, over character lists -/

/-- JS `String.prototype.trim()`: strip whitespace from both ends. -/
def jsTrim (s : String) : String :=
  ⟨((s.data.dropWhile Char.isWhitespace).reverse.dropWhile
      Char.isWhitespace).reverse⟩

/-- JS `String.prototype.toLowerCase()` (ASCII range, which is also what
the handlers' inputs exercise). -/
def jsToLower (s : String) : String :=
  ⟨s.data.map Char.toLower⟩

/-- JS `String.prototype.includes` (substring test) on character lists. -/
def listIncludes (pat : List Char) : List Char → Bool
  | [] => pat.isEmpty
  | c :: rest => pat.isPrefixOf (c :: rest) || listIncludes pat rest

/-- JS `String.prototype.includes` on strings. -/
def strIncludes (s pat : String) : Bool :=
  listIncludes pat.data s.data

/-- Case-insensitive substring match (Prisma `contains` with
`mode: "insensitive"`). -/
def containsCI (s pat : String) : Bool :=
  strIncludes (jsToLower s) (jsToLower pat)

/-! ### Status transition (`PUT /api/admin/approval`) -/

/-- The update applied by `PUT /api/admin/approval` once the target row is
found: `updateData` always carries the new status; for APPROVED/REJECTED it
sets `approvedAt = new Date()` and `approvedBy = session.user.id`; for
PENDING it resets both to null. -/
def applyApproval (f : Submission) (newStatus : FileStatus)
    (actingUserId : String) (now : Nat) : Submission :=
  match newStatus with
  | .APPROVED => { f with status := .APPROVED, approvedAt := some now,
                          approvedBy := some actingUserId }
  | .REJECTED => { f with status := .REJECTED, approvedAt := some now,
                          approvedBy := some actingUserId }
  | .PENDING => { f with status := .PENDING, approvedAt := none,
                         approvedBy := none }

/-- `hasRole` from `lib/auth-utils.ts`: false when the session has no role,
otherwise compares the role string. -/
def hasRole (s : SessionInfo) (required : String) : Bool :=
  match s.role with
  | none => false
  | some r => r = required

/-- The CUID format check of the approval route: `/^c[a-z0-9]{24}$/`. -/
def cuidOk (s : String) : Bool :=
  match s.data with
  | [] => false
  | c :: rest => c = 'c' && rest.length = 24 &&
      rest.all (fun ch => ch.isLower || ch.isDigit)

/-- Body of `PUT /api/admin/approval` (`ApprovalRequest`). -/
structure ApprovalBody where
  fileId : String
  status : String
  comment : Option String := none
deriving DecidableEq, Repr

/-- The `PUT /api/admin/approval` handler.  `verifyAuthorization` failures
throw messages (`"Authentication required"` / `"Insufficient permissions"`)
that this route's own catch block — which only looks for the substring
`'authorization'` — does not recognize, so they fall through to the generic
500 response. -/
def approvalPUT (db : DB) (session : Option SessionInfo) (b : ApprovalBody)
    (now : Nat) : Except HttpError (Submission × DB) :=
  match session with
  | none => .error ⟨500, "Internal server error"⟩
  | some s =>
    if !hasRole s "TEACHER" then
      .error ⟨500, "Internal server error"⟩
    else if b.fileId = "" || jsTrim b.fileId = "" then
      .error ⟨400, "File ID is required and must be a valid string"⟩
    else
      match parseFileStatus b.status with
      | none => .error ⟨400,
          "Status is required and must be one of: PENDING, APPROVED, REJECTED"⟩
      | some st =>
        if !cuidOk b.fileId then
          .error ⟨400, "Invalid file ID format"⟩
        else
          match db.files.find? (fun f => f.id = b.fileId) with
          | none => .error ⟨404, "File not found"⟩
          | some f =>
            -- `prisma.file.update({ where: { id } })` rewrites the unique
            -- row with `updateData` and returns the updated row
            .ok (applyApproval f st s.userId now,
                 { db with files := db.files.map (fun g =>
                    if g.id = b.fileId then applyApproval g st s.userId now
                    else g) })

/-! ### Upload URL grant (`POST /api/upload/presigned-url`) -/

/-- `MAX_FILE_SIZE` from `types/storage.ts`: 15 MiB. -/
def MAX_FILE_SIZE : Int := 15 * 1024 * 1024

/-- `ALLOWED_FILE_TYPES` from `types/storage.ts`. -/
def ALLOWED_FILE_TYPES : List String :=
  ["application/pdf",
   "application/msword",
   "application/vnd.openxmlformats-officedocument.wordprocessingml.document",
   "image/jpeg",
   "image/png",
   "image/jpg"]

/-- Body of `POST /api/upload/presigned-url`. -/
structure PresignedUrlBody where
  fileName : String
  fileType : String
  fileSize : Int
  userId : String
deriving DecidableEq, Repr

/-- The zod `presignedUrlSchema`: fileName min 1, fileType in the allowed
set, fileSize in [1, MAX_FILE_SIZE], userId min 1. -/
def presignedSchemaOk (b : PresignedUrlBody) : Prop :=
  1 ≤ b.fileName.length ∧ b.fileType ∈ ALLOWED_FILE_TYPES ∧
  1 ≤ b.fileSize ∧ b.fileSize ≤ MAX_FILE_SIZE ∧ 1 ≤ b.userId.length

instance (b : PresignedUrlBody) : Decidable (presignedSchemaOk b) := by
  unfold presignedSchemaOk; exact inferInstance

/-- The `dangerousPatterns` list of `validateFileOnServer`. -/
def dangerousPatterns : List String :=
  ["..", "/", "\\", "<", ">", ":", "\"", "|", "?", "*"]

/-- `validateFileOnServer` from `lib/validation.ts`; returns the error
message when invalid, in the source's check order. -/
def validateFileOnServer (fileName : String) (fileSize : Int)
    (mimeType : String) : Option String :=
  if MAX_FILE_SIZE < fileSize then
    some "File size exceeds 15MB limit"
  else if mimeType ∉ ALLOWED_FILE_TYPES then
    some ("File type " ++ mimeType ++ " is not allowed")
  else if fileSize ≤ 0 then
    some "Invalid file size"
  else if fileName = "" ∨ (jsTrim fileName).length = 0 then
    some "File name is required"
  else if dangerousPatterns.any (fun p => strIncludes fileName p) then
    some "File name contains invalid characters"
  else
    none

/-- The successful response of the presigned-url route; the `uploadUrl`
string itself is produced by the external S3 presigner and is omitted. -/
structure UploadUrlResponse where
  fileKey : String
  expiresIn : Nat
deriving DecidableEq, Repr

/-- The `POST /api/upload/presigned-url` handler.  `randomId` is the uuid
generated by `generateUploadUrl`; the object key is
`uploads/{userId}/{randomId}-{fileName}` with a 5-minute expiry. -/
def presignedUrlPOST (b : PresignedUrlBody) (randomId : String) :
    Except HttpError UploadUrlResponse :=
  if ¬ presignedSchemaOk b then
    .error ⟨400, "Validation failed"⟩
  else
    match validateFileOnServer b.fileName b.fileSize b.fileType with
    | some msg => .error ⟨400, msg⟩
    | none =>
      .ok ⟨"uploads/" ++ b.userId ++ "/" ++ (randomId ++ "-" ++ b.fileName),
           300⟩

/-! ### Upload completion (`POST /api/upload/complete`) -/

/-- Body of `POST /api/upload/complete`.  `clientStatus` stands for a
`status` key a client may include in the JSON body: `completeUploadSchema`
has no such field, so `parse` strips it and the handler never reads it. -/
structure CompleteUploadBody where
  fileKey : String
  fileName : String
  fileSize : Int
  mimeType : String
  userId : String
  clientStatus : Option String := none
deriving DecidableEq, Repr

/-- The zod `completeUploadSchema`: every string field min 1, fileSize
min 1.  No upper size bound and no MIME-type restriction. -/
def completeUploadSchemaOk (b : CompleteUploadBody) : Prop :=
  1 ≤ b.fileKey.length ∧ 1 ≤ b.fileName.length ∧ 1 ≤ b.fileSize ∧
  1 ≤ b.mimeType.length ∧ 1 ≤ b.userId.length

instance (b : CompleteUploadBody) : Decidable (completeUploadSchemaOk b) := by
  unfold completeUploadSchemaOk; exact inferInstance

/-- `StorageService.saveFileMetadata`: `prisma.file.create` with the given
status; `uploadedAt` defaults to `CURRENT_TIMESTAMP`, `approvedAt` and
`approvedBy` default to NULL.  Returns the created row. -/
def saveFileMetadata (db : DB) (newId : String) (now : Nat)
    (userId fileName : String) (fileSize : Int)
    (mimeType s3ObjectId : String) (status : FileStatus) :
    Submission × DB :=
  let f : Submission :=
    ⟨newId, userId, s3ObjectId, fileName, fileSize, mimeType, status, now,
     none, none⟩
  (f, { db with files := db.files ++ [f] })

/-- The `POST /api/upload/complete` handler: validates the body with
`completeUploadSchema`, then calls `saveFileMetadata` with
`status: "PENDING"` hard-coded. -/
def uploadCompletePOST (db : DB) (b : CompleteUploadBody) (newId : String)
    (now : Nat) : Except HttpError (Submission × DB) :=
  if ¬ completeUploadSchemaOk b then
    .error ⟨400, "Validation failed"⟩
  else
    .ok (saveFileMetadata db newId now b.userId b.fileName b.fileSize
          b.mimeType b.fileKey .PENDING)

/-! ### Registration (`POST /register`) -/

/-- A character admissible anywhere in the local part of zod's default
email regex: `[A-Za-z0-9_'+\-\.]` (39 is the apostrophe). -/
def isEmailLocalChar (c : Char) : Bool :=
  c.isAlpha || c.isDigit || c = '_' || c = Char.ofNat 39 ||
  c = '+' || c = '-' || c = '.'

/-- A character admissible as the last local-part character:
`[A-Za-z0-9_+-]`. -/
def isEmailLocalEnd (c : Char) : Bool :=
  c.isAlpha || c.isDigit || c = '_' || c = '+' || c = '-'

/-- No two consecutive dots (the regex's `(?!.*\.\.)`). -/
def noDoubleDot : List Char → Bool
  | [] => true
  | [_] => true
  | a :: b :: rest => !(a = '.' && b = '.') && noDoubleDot (b :: rest)

/-- Split a character list on a separator character. -/
def splitOnChar (sep : Char) : List Char → List (List Char)
  | [] => [[]]
  | c :: rest =>
    match splitOnChar sep rest with
    | [] => [[]]
    | g :: gs => if c = sep then [] :: g :: gs else (c :: g) :: gs

/-- Local part of zod's email regex:
`(?!\.)` + `([A-Za-z0-9_'+\-\.]*)[A-Za-z0-9_+-]` + no double dot. -/
def emailLocalOk (l : List Char) : Bool :=
  match l with
  | [] => false
  | c :: _ =>
    !(c = '.') && l.all isEmailLocalChar && noDoubleDot l &&
    (match l.reverse with
     | [] => false
     | e :: _ => isEmailLocalEnd e)

/-- A domain label: `[A-Za-z0-9][A-Za-z0-9\-]*`. -/
def emailLabelOk (l : List Char) : Bool :=
  match l with
  | [] => false
  | c :: rest =>
    (c.isAlpha || c.isDigit) &&
    rest.all (fun ch => ch.isAlpha || ch.isDigit || ch = '-')

/-- The top-level domain: `[A-Za-z]{2,}`. -/
def emailTldOk (l : List Char) : Bool :=
  2 ≤ l.length && l.all Char.isAlpha

/-- Domain of zod's email regex: `([A-Za-z0-9][A-Za-z0-9\-]*\.)+[A-Za-z]{2,}`. -/
def emailDomainOk (d : List Char) : Bool :=
  match (splitOnChar '.' d).reverse with
  | [] => false
  | tld :: labels => emailTldOk tld && !labels.isEmpty &&
      labels.all emailLabelOk

/-- zod's default `z.string().email()` regex
`/^(?!\.)(?!.*\.\.)([A-Za-z0-9_'+\-\.]*)[A-Za-z0-9_+-]@([A-Za-z0-9][A-Za-z0-9\-]*\.)+[A-Za-z]{2,}$/`:
exactly one `@`, valid local part, valid domain. -/
def emailOk (s : String) : Bool :=
  match splitOnChar '@' s.data with
  | [lp, dp] => emailLocalOk lp && emailDomainOk dp
  | _ => false

/-- The CCCD pattern of `registerSchema`: `/^\d{12}$/`. -/
def cccdOk (s : String) : Bool :=
  s.length = 12 && s.data.all Char.isDigit

/-- Body of `POST /register`.  `roleField` stands for a `role` key a client
may include in the JSON body: `registerSchema` has no such field, so
`parse` strips it and the handler never reads it. -/
structure RegisterBody where
  email : String
  password : String
  cccd : String
  name : String
  roleField : Option String := none

/-- The zod `registerSchema`: valid email, password min 6, CCCD exactly 12
digits, name min 1. -/
def registerSchemaOk (b : RegisterBody) : Prop :=
  emailOk b.email = true ∧ 6 ≤ b.password.length ∧ cccdOk b.cccd = true ∧
  1 ≤ b.name.length

instance (b : RegisterBody) : Decidable (registerSchemaOk b) := by
  unfold registerSchemaOk; exact inferInstance

/-- The `POST /register` handler.  `hashFn` abstracts `bcryptjs.hash(·, 12)`
and `newId` the id Prisma generates for the new row.  The duplicate check
is `findFirst({ where: { OR: [{email}, {cccd}] } })`; the created user's
role is the hard-coded `"STUDENT"`. -/
def registerPOST (db : DB) (b : RegisterBody) (hashFn : String → String)
    (newId : String) : Except HttpError (User × DB) :=
  if ¬ registerSchemaOk b then
    .error ⟨400, "Validation failed"⟩
  else
    let nu : User :=
      ⟨newId, b.name, b.email, b.cccd, hashFn b.password, "STUDENT"⟩
    match db.users.find? (fun u => u.email = b.email || u.cccd = b.cccd) with
    | some u =>
      if u.email = b.email then
        .error ⟨409, "Email already registered"⟩
      else if u.cccd = b.cccd then
        .error ⟨409, "CCCD already registered"⟩
      else
        -- unreachable: `findFirst` only returns rows matching the OR filter
        .ok (nu, { db with users := db.users ++ [nu] })
    | none =>
      .ok (nu, { db with users := db.users ++ [nu] })

/-! ### Submission listing (`GET /api/admin/submissions`) -/

/-- Descending order on `uploadedAt` (`orderBy: { uploadedAt: 'desc' }`). -/
def subDesc (a b : Submission) : Prop :=
  b.uploadedAt ≤ a.uploadedAt

instance : DecidableRel subDesc := fun _ _ => Nat.decLe _ _

instance : IsTotal Submission subDesc :=
  ⟨fun a b => Nat.le_total b.uploadedAt a.uploadedAt⟩

instance : IsTrans Submission subDesc :=
  ⟨fun _ _ _ hab hbc => le_trans hbc hab⟩

/-- The user OR-filter of the search clause: name, email, or CCCD contains
the term, case-insensitively. -/
def userMatchesSearch (u : User) (term : String) : Bool :=
  containsCI u.name term || containsCI u.email term || containsCI u.cccd term

/-- The Prisma `whereClause` of the submissions listing: optional exact
status, and optional search against the owning user (a row with no owner
row cannot match the relational filter). -/
def fileWhere (db : DB) (statusFilter : Option FileStatus)
    (searchTerm : Option String) (f : Submission) : Bool :=
  (match statusFilter with
   | some st => f.status = st
   | none => true) &&
  (match searchTerm with
   | some t =>
     match db.users.find? (fun u => u.id = f.userId) with
     | some u => userMatchesSearch u t
     | none => false
   | none => true)

/-- `searchParams.get(k) || undefined`: an absent or empty query value is
treated as absent. -/
def normalizeParam : Option String → Option String
  | some "" => none
  | some s => some s
  | none => none

/-- The status part of the `whereClause`: no restriction when absent or the
sentinel `"ALL"`; the unchecked cast of any other non-enum string makes the
Prisma query throw, which the route maps to the generic 500 response. -/
def statusFilterFromParam (statusParam : Option String) :
    Except HttpError (Option FileStatus) :=
  match normalizeParam statusParam with
  | none => .ok none
  | some s =>
    if s = "ALL" then .ok none
    else
      match parseFileStatus s with
      | some st => .ok (some st)
      | none => .error ⟨500, "Failed to fetch submissions"⟩

/-- The pagination metadata of the listing response.  `totalPages` is
`Math.ceil(totalCount / limit)`, written as natural-number ceiling
division (the two agree for `limit ≥ 1`). -/
structure Pagination where
  currentPage : Nat
  totalPages : Nat
  totalCount : Nat
  limit : Nat
  hasNextPage : Bool
  hasPrevPage : Bool
deriving DecidableEq, Repr

/-- The listing response: one page of rows plus pagination metadata.  (The
route serializes a projection of each row joined with owner fields; the
model carries the full rows.) -/
structure ListResponse where
  submissions : List Submission
  pagination : Pagination
deriving DecidableEq, Repr

/-- The shared query logic of both `GET /api/admin/submissions` handlers:
filter, order by `uploadedAt` descending, skip `(page-1)*limit`, take
`limit`, and count the matching rows.  `page` and `limit` are the parsed
query values (defaults 1 and 10). -/
def adminSubmissionsQuery (db : DB) (page limit : Nat)
    (statusParam searchParam : Option String) :
    Except HttpError ListResponse :=
  match statusFilterFromParam statusParam with
  | .error e => .error e
  | .ok stF =>
    let search := normalizeParam searchParam
    let matching := db.files.filter (fileWhere db stF search)
    let sorted := List.insertionSort subDesc matching
    let pageRows := (sorted.drop ((page - 1) * limit)).take limit
    let totalCount := matching.length
    let totalPages := (totalCount + limit - 1) / limit
    .ok ⟨pageRows,
         ⟨page, totalPages, totalCount, limit,
          decide (page < totalPages), decide (1 < page)⟩⟩

/-- The `GET /api/admin/submissions` handler that authorizes through
`verifyAuthorization` and maps its thrown messages with `handleAuthError`:
no session gives 401, a non-TEACHER role gives 403 FORBIDDEN. -/
def listSubmissionsA (db : DB) (session : Option SessionInfo)
    (page limit : Nat) (statusParam searchParam : Option String) :
    Except HttpError ListResponse :=
  match session with
  | none => .error ⟨401, "Authentication required"⟩
  | some s =>
    if ¬ hasRole s "TEACHER" then
      .error ⟨403, "Forbidden - insufficient permissions"⟩
    else
      adminSubmissionsQuery db page limit statusParam searchParam

/-- The repository's second `GET /api/admin/submissions` handler, which
checks the session inline: any failure — including a present session with
STUDENT role — is answered with status 401. -/
def listSubmissionsB (db : DB) (session : Option SessionInfo)
    (page limit : Nat) (statusParam searchParam : Option String) :
    Except HttpError ListResponse :=
  match session with
  | none => .error ⟨401, "Unauthorized - Teacher access required"⟩
  | some s =>
    if s.role ≠ some "TEACHER" then
      .error ⟨401, "Unauthorized - Teacher access required"⟩
    else
      adminSubmissionsQuery db page limit statusParam searchParam

/-! ### Student file listing (`GET /api/files/user/[userId]`) -/

/-- The `GET /api/files/user/[userId]` handler: returns the files whose
`userId` equals the path parameter, newest first.  The request's
session/headers are never consulted — the handler performs no
authentication and no ownership check, which is why the (unread) `session`
argument does not occur in the body. -/
def userFilesGET (db : DB) (_session : Option SessionInfo)
    (pathUserId : String) : Except HttpError (List Submission) :=
  if pathUserId = "" then
    .error ⟨400, "User ID is required"⟩
  else
    .ok (List.insertionSort subDesc
          (db.files.filter (fun f => f.userId = pathUserId)))

/-! ### The write surface as a step function -/

/-- One request against the service: every handler of the model.  The
remaining route handlers of the repository (admin download, admin student
detail, the approval-status GET) only read the store. -/
inductive Op where
  | opRegister (b : RegisterBody) (hashFn : String → String) (newId : String)
  | opPresign (b : PresignedUrlBody) (randomId : String)
  | opUploadComplete (b : CompleteUploadBody) (newId : String) (now : Nat)
  | opApproval (session : Option SessionInfo) (b : ApprovalBody) (now : Nat)
  | opListSubmissions (session : Option SessionInfo) (page limit : Nat)
      (statusParam searchParam : Option String)
  | opUserFiles (session : Option SessionInfo) (pathUserId : String)

/-- The store after one request.  The presigned-url route performs no
store access; the listing and file-listing routes only read. -/
def applyOp (db : DB) : Op → DB
  | .opRegister b hashFn newId =>
    match registerPOST db b hashFn newId with
    | .ok (_, db') => db'
    | .error _ => db
  | .opPresign _ _ => db
  | .opUploadComplete b newId now =>
    match uploadCompletePOST db b newId now with
    | .ok (_, db') => db'
    | .error _ => db
  | .opApproval sess b now =>
    match approvalPUT db sess b now with
    | .ok (_, db') => db'
    | .error _ => db
  | .opListSubmissions .. => db
  | .opUserFiles .. => db

/-! ### Concrete instances used by witnesses and counterexamples -/

/-- A concrete pending submission with a Prisma-style cuid id. -/
def subW : Submission :=
  ⟨"cabcdefghijklmnopqrstuvwx", "alice", "uploads/alice/r1-f.pdf", "f.pdf",
   100, "application/pdf", .PENDING, 1, none, none⟩

/-- The store holding just `subW`. -/
def dbW : DB := ⟨[], [subW]⟩

/-- A teacher session. -/
def teacherW : SessionInfo := ⟨"teach1", some "TEACHER"⟩

/-- A student session. -/
def studentW : SessionInfo := ⟨"stud1", some "STUDENT"⟩

/-- The approval request body approving `subW`. -/
def bodyW : ApprovalBody := ⟨"cabcdefghijklmnopqrstuvwx", "APPROVED", none⟩

/-- `subW` after the APPROVED transition at time 42 by `teach1`. -/
def subW' : Submission :=
  ⟨"cabcdefghijklmnopqrstuvwx", "alice", "uploads/alice/r1-f.pdf", "f.pdf",
   100, "application/pdf", .APPROVED, 1, some 42, some "teach1"⟩

/-- The empty store. -/
def db0 : DB := ⟨[], []⟩

/-- An upload-completion body that also smuggles a client-supplied
`status` key (stripped by the schema). -/
def bU : CompleteUploadBody :=
  ⟨"uploads/alice/r2-g.pdf", "g.pdf", 2048, "application/pdf", "alice",
   some "APPROVED"⟩

/-- The row created for `bU` with id `cid1` at time 7. -/
def fU : Submission :=
  ⟨"cid1", "alice", "uploads/alice/r2-g.pdf", "g.pdf", 2048,
   "application/pdf", .PENDING, 7, none, none⟩

/-- An upload-completion body whose size (16 MiB) exceeds the grant-time
limit and whose MIME type is outside the allowed set. -/
def bBig : CompleteUploadBody :=
  ⟨"uploads/alice/r3-h.exe", "h.exe", 16 * 1024 * 1024,
   "application/x-msdownload", "alice", none⟩

/-- Decidable equality of handler results. -/
instance {ε α : Type} [DecidableEq ε] [DecidableEq α] :
    DecidableEq (Except ε α) := fun a b =>
  match a, b with
  | .error e, .error e' =>
    if h : e = e' then isTrue (h ▸ rfl)
    else isFalse (fun hc => h (Except.error.inj hc))
  | .error _, .ok _ => isFalse (fun hc => Except.noConfusion hc)
  | .ok _, .error _ => isFalse (fun hc => Except.noConfusion hc)
  | .ok v, .ok v' =>
    if h : v = v' then isTrue (h ▸ rfl)
    else isFalse (fun hc => h (Except.ok.inj hc))

/-- Stands for the bcrypt digest function in witnesses. -/
def hashW : String → String := fun p => "bcrypt12-" ++ p

/-- A registered student. -/
def userAlice : User :=
  ⟨"alice", "Nguyen Van A", "a@x.com", "111111111111",
   "bcrypt12-password0", "STUDENT"⟩

/-- The store holding only `userAlice`. -/
def db1 : DB := ⟨[userAlice], []⟩

/-- A registration attempt reusing `userAlice`'s email but carrying a
5-character password. -/
def bDupBadPw : RegisterBody :=
  ⟨"a@x.com", "12345", "222222222222", "Bob", none⟩

/-- A well-formed registration attempt reusing `userAlice`'s email. -/
def bDup : RegisterBody :=
  ⟨"a@x.com", "secret1", "222222222222", "Bob", none⟩

/-- A registration attempt satisfying every condition C8 lists — but with
an empty name. -/
def bNoName : RegisterBody :=
  ⟨"b@x.com", "secret1", "333333333333", "", none⟩

/-- A fully valid, fresh registration attempt that also smuggles a `role`
key of TEACHER in the body. -/
def bFresh : RegisterBody :=
  ⟨"b@x.com", "secret1", "333333333333", "Bob", some "TEACHER"⟩

/-- A presigned-url request whose file name contains a `/` (a dangerous
pattern) but whose size and MIME type satisfy C4's stated preconditions. -/
def bSlash : PresignedUrlBody :=
  ⟨"a/b.pdf", "application/pdf", 1024, "u1"⟩

/-- A fully valid presigned-url request. -/
def bGood : PresignedUrlBody :=
  ⟨"f.pdf", "application/pdf", 1024, "u1"⟩

/-- A presigned-url request one byte over the 15 MiB limit. -/
def bTooBig : PresignedUrlBody :=
  ⟨"f.pdf", "application/pdf", 15 * 1024 * 1024 + 1, "u1"⟩

/-- A second registered student. -/
def userBob : User :=
  ⟨"bob", "Tran Thi B", "b@x.com", "222222222222",
   "bcrypt12-password1", "STUDENT"⟩

/-- A student session for `userBob`. -/
def sessBob : SessionInfo := ⟨"bob", some "STUDENT"⟩

/-- An approved submission of `userAlice`, uploaded at time 10. -/
def s1 : Submission :=
  ⟨"cfile1aaaaaaaaaaaaaaaaaaaa", "alice", "uploads/alice/r1-a.pdf", "a.pdf",
   100, "application/pdf", .APPROVED, 10, some 11, some "teach1"⟩

/-- An approved submission of `userBob`, uploaded at time 20. -/
def s2 : Submission :=
  ⟨"cfile2bbbbbbbbbbbbbbbbbbbb", "bob", "uploads/bob/r2-b.pdf", "b.pdf",
   200, "application/pdf", .APPROVED, 20, some 21, some "teach1"⟩

/-- A pending submission of `userAlice`, uploaded at time 30. -/
def s3 : Submission :=
  ⟨"cfile3cccccccccccccccccccc", "alice", "uploads/alice/r3-c.pdf", "c.pdf",
   300, "application/pdf", .PENDING, 30, none, none⟩

/-- A store with two users and three submissions. -/
def dbList : DB := ⟨[userAlice, userBob], [s1, s2, s3]⟩

/-- The listing response for page 1 (limit 10) of `dbList` filtered to
APPROVED and searched for `nguyen`: only `s1` matches. -/
def rList : ListResponse := ⟨[s1], ⟨1, 1, 1, 10, false, false⟩⟩

/-! ### Theorems -/

/-- A string is non-empty exactly when its length is at least 1. -/
theorem one_le_length_iff (s : String) : 1 ≤ s.length ↔ s ≠ "" := by
  cases s with
  | mk l =>
    cases l with
    | nil => simp [String.length]
    | cons c cs =>
      constructor
      · intro _ h
        exact List.noConfusion (congrArg String.data h)
      · intro _
        simp [String.length]

/-- `applyApproval` never changes the row id. -/
theorem applyApproval_id (g : Submission) (st : FileStatus) (uid : String)
    (now : Nat) : (applyApproval g st uid now).id = g.id := by
  cases st <;> rfl

/-- A successful upload completion appends exactly one row, with status
PENDING, null approval metadata, and `uploadedAt = now`. -/
theorem uploadComplete_ok_shape (db : DB) (b : CompleteUploadBody)
    (newId : String) (now : Nat) (f : Submission) (db' : DB)
    (h : uploadCompletePOST db b newId now = .ok (f, db')) :
    f.status = .PENDING ∧ f.approvedAt = none ∧ f.approvedBy = none ∧
    f.uploadedAt = now ∧ db'.files = db.files ++ [f] := by
  simp only [uploadCompletePOST] at h
  split at h
  · exact Except.noConfusion h
  · have h2 := Except.ok.inj h
    have h4 : _ = f := congrArg Prod.fst h2
    have h5 : _ = db' := congrArg Prod.snd h2
    subst h4
    subst h5
    simp [saveFileMetadata]

/-- A successful registration leaves the `files` table unchanged. -/
theorem registerPOST_files_unchanged (db : DB) (b : RegisterBody)
    (hashFn : String → String) (newId : String) (u : User) (db' : DB)
    (h : registerPOST db b hashFn newId = .ok (u, db')) :
    db'.files = db.files := by
  simp only [registerPOST] at h
  repeat' split at h
  any_goals exact Except.noConfusion h
  all_goals
    have h2 := Except.ok.inj h
    have h5 : _ = db' := congrArg Prod.snd h2
    subst h5
    rfl

/-- A successful approval call only rewrites existing rows in place: every
row of the new store carries the id of a row of the old store. -/
theorem approvalPUT_preserves_ids (db : DB) (sess : Option SessionInfo)
    (b : ApprovalBody) (now : Nat) (f' : Submission) (db' : DB)
    (h : approvalPUT db sess b now = .ok (f', db')) :
    ∀ g' ∈ db'.files, ∃ g ∈ db.files, g'.id = g.id := by
  intro g' hg'
  simp only [approvalPUT] at h
  repeat' split at h
  any_goals exact Except.noConfusion h
  have h2 := Except.ok.inj h
  have h5 : _ = db' := congrArg Prod.snd h2
  subst h5
  rcases List.mem_map.mp hg' with ⟨g, hgmem, hgeq⟩
  refine ⟨g, hgmem, ?_⟩
  by_cases hid : g.id = b.fileId
  · rw [if_pos hid] at hgeq
    rw [← hgeq]
    exact applyApproval_id g _ _ _
  · rw [if_neg hid] at hgeq
    rw [← hgeq]

/-- C1: for every teacher-authorized call of the status-transition
operation on an existing submission, the resulting submission has
`status = newStatus`; for APPROVED/REJECTED, `approvedAt = now` and
`approvedBy = acting user`; for PENDING both are cleared — regardless of
the submission's prior state. -/
theorem approval_sets_status_and_metadata
    (db : DB) (sess : SessionInfo) (b : ApprovalBody) (now : Nat)
    (st : FileStatus) (f' : Submission) (db' : DB)
    (hok : approvalPUT db (some sess) b now = .ok (f', db'))
    (hst : parseFileStatus b.status = some st) :
    f'.status = st ∧
    ((st = .APPROVED ∨ st = .REJECTED) →
      f'.approvedAt = some now ∧ f'.approvedBy = some sess.userId) ∧
    (st = .PENDING → f'.approvedAt = none ∧ f'.approvedBy = none) := by
  simp only [approvalPUT] at hok
  repeat' split at hok
  any_goals exact Except.noConfusion hok
  rename_i st1 hparse hcuid x2 f1 hfind
  have hst1 : st1 = st := Option.some.inj (hparse.symm.trans hst)
  rw [hst1] at hok
  have h := Except.ok.inj hok
  have hf : applyApproval f1 st sess.userId now = f' := congrArg Prod.fst h
  subst hf
  cases st <;> simp [applyApproval]

/-- Witness for C1: a concrete teacher-authorized APPROVED transition. -/
theorem approval_sets_status_and_metadata_witness :
    (approvalPUT dbW (some teacherW) bodyW 42 = .ok (subW', ⟨[], [subW']⟩) ∧
     parseFileStatus bodyW.status = some .APPROVED) ∧
    (subW'.status = .APPROVED ∧
     ((FileStatus.APPROVED = .APPROVED ∨ FileStatus.APPROVED = .REJECTED) →
       subW'.approvedAt = some 42 ∧ subW'.approvedBy = some teacherW.userId) ∧
     (FileStatus.APPROVED = .PENDING →
       subW'.approvedAt = none ∧ subW'.approvedBy = none)) :=
  ⟨⟨by rfl, by rfl⟩,
   approval_sets_status_and_metadata dbW teacherW bodyW 42 .APPROVED subW'
     ⟨[], [subW']⟩ (by rfl) (by rfl)⟩

/-- C2: after any status transition, `approvedAt` and `approvedBy` are
either both null or both non-null — never exactly one of them. -/
theorem approval_metadata_both_or_neither
    (f : Submission) (st : FileStatus) (uid : String) (now : Nat) :
    ((applyApproval f st uid now).approvedAt = none ∧
     (applyApproval f st uid now).approvedBy = none) ∨
    ((applyApproval f st uid now).approvedAt ≠ none ∧
     (applyApproval f st uid now).approvedBy ≠ none) := by
  cases st with
  | PENDING => left; simp [applyApproval]
  | APPROVED => right; simp [applyApproval]
  | REJECTED => right; simp [applyApproval]

/-- C3: every successful upload completion creates a row with status
PENDING, null approval metadata, and `uploadedAt = now`; the result is
independent of any client-supplied `status` value; and across the service's
whole write surface, upload completion is the only operation that creates
a submission row. -/
theorem upload_complete_pending_sole_creator :
    (∀ (db : DB) (b : CompleteUploadBody) (newId : String) (now : Nat)
       (f : Submission) (db' : DB),
       uploadCompletePOST db b newId now = .ok (f, db') →
       f.status = .PENDING ∧ f.approvedAt = none ∧ f.approvedBy = none ∧
       f.uploadedAt = now ∧ db'.files = db.files ++ [f]) ∧
    (∀ (db : DB) (b : CompleteUploadBody) (cs : Option String)
       (newId : String) (now : Nat),
       uploadCompletePOST db { b with clientStatus := cs } newId now =
         uploadCompletePOST db b newId now) ∧
    (∀ (db : DB) (op : Op) (f' : Submission),
       f' ∈ (applyOp db op).files →
       (∃ f ∈ db.files, f'.id = f.id) ∨
       ∃ b newId now, op = .opUploadComplete b newId now ∧
         f'.status = .PENDING ∧ f'.approvedAt = none ∧
         f'.approvedBy = none ∧ f'.uploadedAt = now) := by
  refine ⟨fun db b newId now f db' h =>
            uploadComplete_ok_shape db b newId now f db' h,
          fun db b cs newId now => rfl, ?_⟩
  intro db op f' hmem
  cases op with
  | opRegister b hashFn newId =>
    left
    revert hmem
    simp only [applyOp]
    split
    · rename_i u db' heq
      intro hmem
      rw [registerPOST_files_unchanged _ _ _ _ _ _ heq] at hmem
      exact ⟨f', hmem, rfl⟩
    · intro hmem
      exact ⟨f', hmem, rfl⟩
  | opPresign b randomId =>
    exact Or.inl ⟨f', hmem, rfl⟩
  | opUploadComplete b newId now =>
    revert hmem
    simp only [applyOp]
    split
    · rename_i f0 db' heq
      intro hmem
      obtain ⟨hs, ha, hb, hu, hfiles⟩ :=
        uploadComplete_ok_shape _ _ _ _ _ _ heq
      rw [hfiles] at hmem
      rcases List.mem_append.mp hmem with hin | hnew
      · exact Or.inl ⟨f', hin, rfl⟩
      · right
        have hf0 : f' = f0 := List.mem_singleton.mp hnew
        subst hf0
        exact ⟨b, newId, now, rfl, hs, ha, hb, hu⟩
    · intro hmem
      exact Or.inl ⟨f', hmem, rfl⟩
  | opApproval sess bb now =>
    revert hmem
    simp only [applyOp]
    split
    · rename_i f0 db' heq
      intro hmem
      exact Or.inl (approvalPUT_preserves_ids _ _ _ _ _ _ heq f' hmem)
    · intro hmem
      exact Or.inl ⟨f', hmem, rfl⟩
  | opListSubmissions sess page limit stP seaP =>
    exact Or.inl ⟨f', hmem, rfl⟩
  | opUserFiles sess pathUserId =>
    exact Or.inl ⟨f', hmem, rfl⟩

/-- Witness for C3: a concrete completed upload (with a smuggled client
`status` of APPROVED) creates a PENDING row at the given time. -/
theorem upload_complete_pending_sole_creator_witness :
    (uploadCompletePOST db0 bU "cid1" 7 = .ok (fU, ⟨[], [fU]⟩)) ∧
    (fU.status = .PENDING ∧ fU.approvedAt = none ∧ fU.approvedBy = none ∧
     fU.uploadedAt = 7 ∧ (⟨[], [fU]⟩ : DB).files = db0.files ++ [fU]) ∧
    (fU ∈ (applyOp db0 (.opUploadComplete bU "cid1" 7)).files) ∧
    ((∃ f ∈ db0.files, fU.id = f.id) ∨
     ∃ b newId now, Op.opUploadComplete bU "cid1" 7 =
         .opUploadComplete b newId now ∧
       fU.status = .PENDING ∧ fU.approvedAt = none ∧ fU.approvedBy = none ∧
       fU.uploadedAt = now) :=
  ⟨by rfl,
   upload_complete_pending_sole_creator.1 db0 bU "cid1" 7 fU ⟨[], [fU]⟩
     (by rfl),
   by decide,
   upload_complete_pending_sole_creator.2.2 db0
     (.opUploadComplete bU "cid1" 7) fU (by decide)⟩

/-- C10: upload completion rejects with a 400 validation error exactly when
a required field is empty or `fileSize < 1`; it never checks the 15 MiB
limit or the allowed MIME-type set, so any body with `fileSize ≥ 1` and
non-empty fields — oversized or of a disallowed type included — creates a
submission row. -/
theorem upload_complete_no_size_or_type_gate
    (db : DB) (b : CompleteUploadBody) (newId : String) (now : Nat) :
    ((∃ e, uploadCompletePOST db b newId now = .error e ∧ e.status = 400) ↔
      (b.fileKey = "" ∨ b.fileName = "" ∨ b.fileSize < 1 ∨
       b.mimeType = "" ∨ b.userId = "")) ∧
    (b.fileKey ≠ "" → b.fileName ≠ "" → 1 ≤ b.fileSize → b.mimeType ≠ "" →
     b.userId ≠ "" →
     ∃ f db', uploadCompletePOST db b newId now = .ok (f, db') ∧
       db'.files = db.files ++ [f]) := by
  have hiff : completeUploadSchemaOk b ↔
      (b.fileKey ≠ "" ∧ b.fileName ≠ "" ∧ 1 ≤ b.fileSize ∧
       b.mimeType ≠ "" ∧ b.userId ≠ "") := by
    unfold completeUploadSchemaOk
    rw [one_le_length_iff, one_le_length_iff, one_le_length_iff,
        one_le_length_iff]
  constructor
  · constructor
    · intro ⟨e, he, _⟩
      by_contra hno
      push_neg at hno
      have hok : completeUploadSchemaOk b := by
        rw [hiff]
        refine ⟨hno.1, hno.2.1, ?_, hno.2.2.2.1, hno.2.2.2.2⟩
        omega
      rw [uploadCompletePOST, if_neg (not_not_intro hok)] at he
      exact Except.noConfusion he
    · intro hbad
      have hnot : ¬ completeUploadSchemaOk b := by
        rw [hiff]
        intro ⟨h1, h2, h3, h4, h5⟩
        rcases hbad with h | h | h | h | h
        · exact h1 h
        · exact h2 h
        · omega
        · exact h4 h
        · exact h5 h
      refine ⟨⟨400, "Validation failed"⟩, ?_, rfl⟩
      rw [uploadCompletePOST, if_pos hnot]
  · intro h1 h2 h3 h4 h5
    have hok : completeUploadSchemaOk b := hiff.mpr ⟨h1, h2, h3, h4, h5⟩
    have hrun : uploadCompletePOST db b newId now =
        .ok (saveFileMetadata db newId now b.userId b.fileName b.fileSize
              b.mimeType b.fileKey .PENDING) := by
      rw [uploadCompletePOST, if_neg (not_not_intro hok)]
    exact ⟨_, _, hrun, by simp [saveFileMetadata]⟩

/-- Witness for C10: a 16 MiB body of a disallowed MIME type is recorded
anyway. -/
theorem upload_complete_no_size_or_type_gate_witness :
    ∃ f db', uploadCompletePOST db0 bBig "cid2" 9 = .ok (f, db') ∧
      db'.files = db0.files ++ [f] :=
  (upload_complete_no_size_or_type_gate db0 bBig "cid2" 9).2
    (by decide) (by decide) (by decide) (by decide) (by decide)

/-- C7 (amended): a registration attempt that passes input validation and
reuses an existing user's email or CCCD fails with 409 and leaves the
store unchanged. -/
theorem register_conflict_rejected
    (db : DB) (b : RegisterBody) (hashFn : String → String) (newId : String)
    (hvalid : registerSchemaOk b)
    (hdup : ∃ u ∈ db.users, u.email = b.email ∨ u.cccd = b.cccd) :
    (∃ e, registerPOST db b hashFn newId = .error e ∧ e.status = 409) ∧
    applyOp db (.opRegister b hashFn newId) = db := by
  obtain ⟨u0, hu0, hor⟩ := hdup
  have hfind : ∃ v, db.users.find?
      (fun u => u.email = b.email || u.cccd = b.cccd) = some v := by
    cases hf : db.users.find?
        (fun u => u.email = b.email || u.cccd = b.cccd) with
    | some v => exact ⟨v, rfl⟩
    | none =>
      have hnone := List.find?_eq_none.mp hf u0 hu0
      simp only [Bool.or_eq_true, decide_eq_true_eq] at hnone
      exact absurd hor hnone
  obtain ⟨v, hv⟩ := hfind
  have hvpred := List.find?_some hv
  simp only [Bool.or_eq_true, decide_eq_true_eq] at hvpred
  have hrun : ∃ e, registerPOST db b hashFn newId = .error e ∧
      e.status = 409 := by
    by_cases he : v.email = b.email
    · refine ⟨⟨409, "Email already registered"⟩, ?_, rfl⟩
      unfold registerPOST
      rw [if_neg (not_not_intro hvalid), hv]
      simp [he]
    · rcases hvpred with hvp | hvp
      · exact absurd hvp he
      · refine ⟨⟨409, "CCCD already registered"⟩, ?_, rfl⟩
        unfold registerPOST
        rw [if_neg (not_not_intro hvalid), hv]
        simp [he, hvp]
  obtain ⟨e, herr, h409⟩ := hrun
  exact ⟨⟨e, herr, h409⟩, by simp [applyOp, herr]⟩

/-- Witness for C7 (amended): a valid attempt reusing `userAlice`'s email
is answered 409 and creates nothing. -/
theorem register_conflict_rejected_witness :
    (∃ e, registerPOST db1 bDup hashW "u2" = .error e ∧ e.status = 409) ∧
    applyOp db1 (.opRegister bDup hashW "u2") = db1 :=
  register_conflict_rejected db1 bDup hashW "u2" (by decide)
    ⟨userAlice, by decide, by decide⟩

/-- Counterexample for C7 as stated: an attempt reusing `userAlice`'s
email whose password has only 5 characters is rejected with the 400
validation error, not with 409. -/
theorem register_conflict_rejected_cx :
    registerPOST db1 bDupBadPw hashW "u2" =
      .error ⟨400, "Validation failed"⟩ ∧
    registerPOST db1 bDupBadPw hashW "u2" ≠
      .error ⟨409, "Email already registered"⟩ := by
  constructor <;> decide

/-- C8 (amended): a registration attempt with a well-formed email, a
password of at least 6 characters, an exactly-12-digit CCCD, a non-empty
name, and fresh email/CCCD succeeds, and the created user's role is the
hard-coded STUDENT — independent of any role value in the request body. -/
theorem register_valid_creates_student
    (db : DB) (b : RegisterBody) (hashFn : String → String) (newId : String)
    (hvalid : registerSchemaOk b)
    (hfresh : ∀ u ∈ db.users, u.email ≠ b.email ∧ u.cccd ≠ b.cccd) :
    ∃ nu db', registerPOST db b hashFn newId = .ok (nu, db') ∧
      nu.role = "STUDENT" ∧ nu.email = b.email ∧ nu.cccd = b.cccd ∧
      nu.name = b.name ∧ nu.passwordHash = hashFn b.password ∧
      db'.users = db.users ++ [nu] ∧ db'.files = db.files ∧
      (∀ rf, registerPOST db { b with roleField := rf } hashFn newId =
        registerPOST db b hashFn newId) := by
  have hfind : db.users.find?
      (fun u => u.email = b.email || u.cccd = b.cccd) = none := by
    apply List.find?_eq_none.mpr
    intro u hu
    obtain ⟨h1, h2⟩ := hfresh u hu
    simp [h1, h2]
  have hrun : registerPOST db b hashFn newId =
      .ok (⟨newId, b.name, b.email, b.cccd, hashFn b.password, "STUDENT"⟩,
           { db with users := db.users ++
              [⟨newId, b.name, b.email, b.cccd, hashFn b.password,
                "STUDENT"⟩] }) := by
    unfold registerPOST
    rw [if_neg (not_not_intro hvalid), hfind]
  exact ⟨_, _, hrun, rfl, rfl, rfl, rfl, rfl, rfl, rfl, fun rf => rfl⟩

/-- Witness for C8 (amended): a concrete fresh registration (whose body
also smuggles `role: TEACHER`) creates a STUDENT. -/
theorem register_valid_creates_student_witness :
    ∃ nu db', registerPOST db1 bFresh hashW "u3" = .ok (nu, db') ∧
      nu.role = "STUDENT" ∧ nu.email = bFresh.email ∧
      nu.cccd = bFresh.cccd ∧ nu.name = bFresh.name ∧
      nu.passwordHash = hashW bFresh.password ∧
      db'.users = db1.users ++ [nu] ∧ db'.files = db1.files ∧
      (∀ rf, registerPOST db1 { bFresh with roleField := rf } hashW "u3" =
        registerPOST db1 bFresh hashW "u3") :=
  register_valid_creates_student db1 bFresh hashW "u3" (by decide)
    (by decide)

/-- Counterexample for C8 as stated: an attempt meeting every condition
C8 lists but with an empty name is rejected with the 400 validation error
instead of succeeding. -/
theorem register_valid_creates_student_cx :
    registerPOST db0 bNoName hashW "u1" =
      .error ⟨400, "Validation failed"⟩ := by
  decide

/-- C4 (amended): every request over 15 MiB fails with a 400 validation
error; a request with `fileSize` in (0, 15 MiB], an allowed MIME type, a
non-empty user id, and a file name that is non-empty after trimming and
free of the dangerous patterns succeeds and returns the key
`uploads/{userId}/{randomId}-{fileName}` with a 300-second expiry. -/
theorem presigned_url_size_gate (b : PresignedUrlBody) (randomId : String) :
    (MAX_FILE_SIZE < b.fileSize →
      ∃ e, presignedUrlPOST b randomId = .error e ∧ e.status = 400) ∧
    (1 ≤ b.fileSize → b.fileSize ≤ MAX_FILE_SIZE →
     b.fileType ∈ ALLOWED_FILE_TYPES →
     1 ≤ b.fileName.length → (jsTrim b.fileName).length ≠ 0 →
     (∀ p ∈ dangerousPatterns, strIncludes b.fileName p = false) →
     1 ≤ b.userId.length →
     presignedUrlPOST b randomId =
       .ok ⟨"uploads/" ++ b.userId ++ "/" ++ (randomId ++ "-" ++ b.fileName),
            300⟩) := by
  constructor
  · intro hbig
    have hnot : ¬ presignedSchemaOk b := by
      intro ⟨_, _, _, h4, _⟩
      omega
    exact ⟨⟨400, "Validation failed"⟩,
           by rw [presignedUrlPOST, if_pos hnot], rfl⟩
  · intro h1 h2 h3 h4 h5 h6 h7
    have hok : presignedSchemaOk b := ⟨h4, h3, h1, h2, h7⟩
    have hval : validateFileOnServer b.fileName b.fileSize b.fileType =
        none := by
      unfold validateFileOnServer
      rw [if_neg (by omega : ¬ MAX_FILE_SIZE < b.fileSize)]
      rw [if_neg (not_not_intro h3)]
      rw [if_neg (by omega : ¬ b.fileSize ≤ 0)]
      rw [if_neg ?hname]
      case hname =>
        rintro (hempty | hlen)
        · apply h5
          rw [hempty]
          rfl
        · exact h5 hlen
      rw [if_neg ?hdanger]
      case hdanger =>
        simp only [List.any_eq_true]
        rintro ⟨p, hp, hs⟩
        rw [h6 p hp] at hs
        exact Bool.noConfusion hs
    rw [presignedUrlPOST, if_neg (not_not_intro hok), hval]

/-- Witness for C4 (amended): an oversized request is rejected 400; a
clean 1 KiB PDF request yields the expected object key. -/
theorem presigned_url_size_gate_witness :
    (∃ e, presignedUrlPOST bTooBig "r1" = .error e ∧ e.status = 400) ∧
    presignedUrlPOST bGood "r1" = .ok ⟨"uploads/u1/r1-f.pdf", 300⟩ :=
  ⟨(presigned_url_size_gate bTooBig "r1").1 (by decide),
   (presigned_url_size_gate bGood "r1").2 (by decide) (by decide)
     (by decide) (by decide) (by decide) (by decide) (by decide)⟩

/-- Counterexample for C4 as stated: `bSlash` has an in-range size and an
allowed MIME type, yet the call fails (its file name contains `/`), so the
success half of C4 does not hold as stated. -/
theorem presigned_url_size_gate_cx :
    presignedUrlPOST bSlash "r1" =
      .error ⟨400, "File name contains invalid characters"⟩ ∧
    presignedUrlPOST bSlash "r1" ≠
      .ok ⟨"uploads/u1/r1-a/b.pdf", 300⟩ := by
  constructor <;> decide

/-- C5 (amended): the user-files endpoint returns exactly the submissions
owned by the `userId` named in the path, and its result is independent of
the caller's session — the handler performs no authentication or ownership
check. -/
theorem user_files_scoped_by_path
    (db : DB) (sess : Option SessionInfo) (path : String)
    (fs : List Submission)
    (hok : userFilesGET db sess path = .ok fs) :
    (∀ f ∈ fs, f.userId = path) ∧
    (∀ sess', userFilesGET db sess' path = userFilesGET db sess path) := by
  constructor
  · intro f hf
    simp only [userFilesGET] at hok
    split at hok
    · exact Except.noConfusion hok
    · have h2 := Except.ok.inj hok
      rw [← h2] at hf
      have hmem := (List.mem_insertionSort subDesc).mp hf
      have := (List.mem_filter.mp hmem).2
      exact of_decide_eq_true this
  · intro sess'
    rfl

/-- Witness for C5 (amended): the files returned for path `alice` are
Alice's, whoever calls. -/
theorem user_files_scoped_by_path_witness :
    (userFilesGET dbList (some sessBob) "alice" = .ok [s3, s1]) ∧
    (∀ f ∈ [s3, s1], f.userId = "alice") ∧
    (∀ sess', userFilesGET dbList sess' "alice" =
      userFilesGET dbList (some sessBob) "alice") :=
  ⟨by decide,
   (user_files_scoped_by_path dbList (some sessBob) "alice" [s3, s1]
     (by decide)).1,
   (user_files_scoped_by_path dbList (some sessBob) "alice" [s3, s1]
     (by decide)).2⟩

/-- Counterexample for C5 as stated: `userBob`'s session requests path
`alice` and receives a submission owned by `alice`, not by the
authenticated caller `bob`. -/
theorem user_files_scoped_by_path_cx :
    userFilesGET dbList (some sessBob) "alice" = .ok [s3, s1] ∧
    s3 ∈ [s3, s1] ∧ s3.userId ≠ sessBob.userId := by
  refine ⟨by decide, by decide, by decide⟩

/-- C6 (amended): a valid STUDENT session calling the approval listing is
answered with an error, never an empty result page: 403 FORBIDDEN by the
handler that authorizes through the shared helper, 401 by the repository's
duplicate inline-check handler. -/
theorem admin_submissions_student_error
    (db : DB) (sess : SessionInfo) (page limit : Nat)
    (stP seaP : Option String)
    (hrole : sess.role = some "STUDENT") :
    listSubmissionsA db (some sess) page limit stP seaP =
      .error ⟨403, "Forbidden - insufficient permissions"⟩ ∧
    listSubmissionsB db (some sess) page limit stP seaP =
      .error ⟨401, "Unauthorized - Teacher access required"⟩ := by
  constructor
  · simp [listSubmissionsA, hasRole, hrole]
  · simp [listSubmissionsB, hrole]

/-- Witness for C6 (amended): the concrete student session `studentW`. -/
theorem admin_submissions_student_error_witness :
    listSubmissionsA db0 (some studentW) 1 10 none none =
      .error ⟨403, "Forbidden - insufficient permissions"⟩ ∧
    listSubmissionsB db0 (some studentW) 1 10 none none =
      .error ⟨401, "Unauthorized - Teacher access required"⟩ :=
  admin_submissions_student_error db0 studentW 1 10 none none (by decide)

/-- Counterexample for C6 as stated: under the repository's duplicate
listing handler, the same student session receives 401, not the claimed
403. -/
theorem admin_submissions_student_error_cx :
    listSubmissionsB db0 (some studentW) 1 10 none none =
      .error ⟨401, "Unauthorized - Teacher access required"⟩ ∧
    listSubmissionsB db0 (some studentW) 1 10 none none ≠
      .error ⟨403, "Forbidden - insufficient permissions"⟩ := by
  constructor <;> decide

/-- Inverting the status parse: a string that parses to `st` is the
serialization of `st`. -/
theorem parse_statusString (s : String) (st : FileStatus)
    (h : parseFileStatus s = some st) : statusString st = s := by
  unfold parseFileStatus at h
  split at h
  · cases Option.some.inj h; rfl
  · cases Option.some.inj h; rfl
  · cases Option.some.inj h; rfl
  · exact Option.noConfusion h

/-- A non-empty query value is not normalized away. -/
theorem normalizeParam_ne (s : String) (h : s ≠ "") :
    normalizeParam (some s) = some s := by
  unfold normalizeParam
  split
  · rename_i heq
    exact absurd (Option.some.inj heq) h
  · rename_i s' heq
    exact (Option.some.inj heq) ▸ rfl
  · rename_i heq
    exact Option.noConfusion heq

/-- A non-sentinel, non-empty status parameter that survives the query
must be a parseable enum value, and is the applied filter. -/
theorem statusFilterFromParam_some (s : String) (stF : Option FileStatus)
    (h : statusFilterFromParam (some s) = .ok stF)
    (hall : s ≠ "ALL") (hne : s ≠ "") :
    ∃ st, parseFileStatus s = some st ∧ stF = some st := by
  unfold statusFilterFromParam at h
  simp only [normalizeParam_ne s hne, if_neg hall] at h
  cases hp : parseFileStatus s with
  | none => rw [hp] at h; exact Except.noConfusion h
  | some st =>
    rw [hp] at h
    exact ⟨st, rfl, (Except.ok.inj h).symm⟩

/-- C9: a successful (hence teacher-authorized) listing call returns a
page ordered by `uploadedAt` descending; with a status filter other than
the `ALL` sentinel every returned row has exactly that status; with a
search term every returned row's owner matches it case-insensitively on
name, email, or CCCD; and the response carries the total matching count
together with the derived `ceil(totalCount / limit)` page count. -/
theorem list_submissions_page_properties
    (db : DB) (sess : SessionInfo) (page limit : Nat)
    (stP seaP : Option String) (r : ListResponse)
    (hok : listSubmissionsA db (some sess) page limit stP seaP = .ok r) :
    r.submissions.Pairwise subDesc ∧
    (∀ s, stP = some s → s ≠ "ALL" → s ≠ "" →
      ∀ f ∈ r.submissions, statusString f.status = s) ∧
    (∀ t, seaP = some t → t ≠ "" →
      ∀ f ∈ r.submissions, ∃ u,
        db.users.find? (fun v => v.id = f.userId) = some u ∧
        userMatchesSearch u t = true) ∧
    (∃ stF, statusFilterFromParam stP = .ok stF ∧
      r.pagination.totalCount =
        (db.files.filter (fileWhere db stF (normalizeParam seaP))).length ∧
      r.pagination.limit = limit ∧ r.pagination.currentPage = page) ∧
    (1 ≤ limit →
      r.pagination.totalCount ≤ r.pagination.totalPages * limit ∧
      r.pagination.totalPages * limit <
        r.pagination.totalCount + limit) := by
  simp only [listSubmissionsA] at hok
  split at hok
  · exact Except.noConfusion hok
  · simp only [adminSubmissionsQuery] at hok
    split at hok
    · exact Except.noConfusion hok
    · rename_i stF heqF
      have hr := Except.ok.inj hok
      subst hr
      set matching := db.files.filter (fileWhere db stF (normalizeParam seaP))
        with hmatching
      set sorted := List.insertionSort subDesc matching with hsortdef
      have hsorted : sorted.Pairwise subDesc :=
        List.sorted_insertionSort subDesc matching
      have hpagesub :
          ((sorted.drop ((page - 1) * limit)).take limit).Sublist sorted :=
        (List.take_sublist _ _).trans (List.drop_sublist _ _)
      have hmempage : ∀ f ∈ (sorted.drop ((page - 1) * limit)).take limit,
          f ∈ matching := by
        intro f hf
        exact (List.mem_insertionSort subDesc).mp (hpagesub.subset hf)
      refine ⟨?_, ?_, ?_, ?_, ?_⟩
      · exact hsorted.sublist hpagesub
      · intro s hsp hall hne f hf
        subst hsp
        obtain ⟨st, hps, hstf⟩ := statusFilterFromParam_some s stF heqF hall hne
        have hw := (List.mem_filter.mp (hmempage f hf)).2
        rw [hstf] at hw
        simp only [fileWhere, Bool.and_eq_true, decide_eq_true_eq] at hw
        rw [← parse_statusString s st hps]
        rw [hw.1]
      · intro t htp hne f hf
        subst htp
        have hw := (List.mem_filter.mp (hmempage f hf)).2
        simp only [fileWhere, Bool.and_eq_true] at hw
        have hw2 := hw.2
        rw [normalizeParam_ne t hne] at hw2
        cases hfd : db.users.find? (fun v => v.id = f.userId) with
        | none => rw [hfd] at hw2; exact Bool.noConfusion hw2
        | some u =>
          rw [hfd] at hw2
          exact ⟨u, rfl, hw2⟩
      · exact ⟨stF, heqF, rfl, rfl, rfl⟩
      · intro hl
        dsimp only
        have h1 : (matching.length + limit - 1) / limit * limit ≤
            matching.length + limit - 1 := Nat.div_mul_le_self _ _
        have h2 : matching.length + limit - 1 <
            ((matching.length + limit - 1) / limit + 1) * limit :=
          (Nat.div_lt_iff_lt_mul hl).mp (Nat.lt_succ_self _)
        rw [Nat.succ_mul] at h2
        set x := (matching.length + limit - 1) / limit * limit with hx
        constructor <;> omega

/-- Witness for C9: page 1 of `dbList` filtered to APPROVED, searched for
`nguyen` (matching `Nguyen Van A` case-insensitively), is exactly `[s1]`
with total count 1 and page count 1. -/
theorem list_submissions_page_properties_witness :
    (listSubmissionsA dbList (some teacherW) 1 10 (some "APPROVED")
        (some "nguyen") = .ok rList) ∧
    (rList.submissions.Pairwise subDesc ∧
     (∀ s, (some "APPROVED" : Option String) = some s → s ≠ "ALL" →
       s ≠ "" → ∀ f ∈ rList.submissions, statusString f.status = s) ∧
     (∀ t, (some "nguyen" : Option String) = some t → t ≠ "" →
       ∀ f ∈ rList.submissions, ∃ u,
         dbList.users.find? (fun v => v.id = f.userId) = some u ∧
         userMatchesSearch u t = true) ∧
     (∃ stF, statusFilterFromParam (some "APPROVED") = .ok stF ∧
       rList.pagination.totalCount =
         (dbList.files.filter
           (fileWhere dbList stF (normalizeParam (some "nguyen")))).length ∧
       rList.pagination.limit = 10 ∧ rList.pagination.currentPage = 1) ∧
     (1 ≤ 10 →
       rList.pagination.totalCount ≤ rList.pagination.totalPages * 10 ∧
       rList.pagination.totalPages * 10 <
         rList.pagination.totalCount + 10)) :=
  ⟨by decide,
   list_submissions_page_properties dbList teacherW 1 10 (some "APPROVED")
     (some "nguyen") rList (by decide)⟩
